import Mathlib

/-!
# Verification of the `as` ALNS engine

A shallow embedding of the Adaptive Large Neighbourhood Search engine of the
`as` repository (`src/alns.h`, `src/alns_acceptance.h` and the roulette-wheel
helper of `src/random.h`), together with theorems settling the frozen claims
about it.

Modelling conventions:
* C++ `float` values (costs, scores, thresholds, elapsed seconds) are embedded
  as rationals `ℚ`, i.e. as ideal real arithmetic.
* `std::size_t` subtraction (which wraps modulo `2^64`) is embedded explicitly
  by `usub64`.
* The Mersenne-Twister generator owned by the status is abstracted into an
  external pivot stream: `roulette_wheel` receives the drawn pivot as an
  argument, and the search loop receives a stream of pivot pairs indexed by
  the iteration counter.  Wall-clock time is likewise abstracted into a clock
  stream indexed by the iteration counter.
* C++ `assert` failures are embedded as the `preconditionViolation` error
  branch; exceptions thrown by user-supplied operators, acceptance criteria
  or visitors are embedded by letting those callables return
  `Except String _`, and the engine wraps their failures as `userError`.
* The unguarded floating-point division in the acceptance gap is embedded as
  a guarded division `safe_div` whose error branch marks division by zero.
-/

/-- Embedding of `as::alns::AlgorithmParams` (`src/alns.h`): the four
score-adaptation constants. -/
structure AlgorithmParams where
  score_decay : ℚ
  new_best_multiplier : ℚ
  new_improving_multiplier : ℚ
  new_accepted_multiplier : ℚ
deriving Repr

/-- The default `AlgorithmParams` constructor values (`src/alns.h`). -/
def AlgorithmParams.default_params : AlgorithmParams :=
  { score_decay := 9/10
    new_best_multiplier := 10
    new_improving_multiplier := 4
    new_accepted_multiplier := 3/2 }

/-- Unsigned 64-bit subtraction `a - b` as performed on `std::size_t`
operands: the result wraps modulo `2^64`. -/
def usub64 (a b : Nat) : Nat :=
  ((a % 2 ^ 64) + (2 ^ 64 - b % 2 ^ 64)) % 2 ^ 64

/-- Embedding of `as::alns::MainTerminationCriterion`
(`src/alns_acceptance.h`). -/
inductive MainTerminationCriterion where
  | iterations
  | time
deriving DecidableEq, Repr

/-- The threshold computed by
`LinearRecordToRecordTravel::operator()` (`src/alns_acceptance.h`, lines
83-87), exactly as the source writes it:
`start_threshold + (start_threshold - end_threshold) * (iterations_limit - iteration_number)`
in iterations mode (a `std::size_t` subtraction), and
`start_threshold + (start_threshold - end_threshold) * (time_limit - elapsed)`
in time mode. -/
def lrrt_threshold (crit : MainTerminationCriterion) (iterations_limit : Nat)
    (time_limit start_threshold end_threshold : ℚ)
    (iteration_number : Nat) (elapsed_time_sec : ℚ) : ℚ :=
  match crit with
  | .iterations =>
      start_threshold +
        (start_threshold - end_threshold) * (usub64 iterations_limit iteration_number : ℚ)
  | .time =>
      start_threshold +
        (start_threshold - end_threshold) * (time_limit - elapsed_time_sec)

/-- The threshold formula as the specification states it: a linear decay from
`start_threshold` at iteration `0` down to `end_threshold` at iteration
`iterations_limit`, i.e.
`end_threshold + (start_threshold - end_threshold) * (limit - k) / limit`.
This definition follows the spec's words, to be compared against
`lrrt_threshold`, which follows the source. -/
def spec_linear_threshold (iterations_limit : Nat)
    (start_threshold end_threshold : ℚ) (k : Nat) : ℚ :=
  end_threshold +
    (start_threshold - end_threshold) * ((iterations_limit : ℚ) - (k : ℚ)) /
      (iterations_limit : ℚ)

/-- Guarded division: the embedding of floating-point division, with an
explicit error branch for a zero divisor (the source divides unguarded). -/
def safe_div (a b : ℚ) : Except String ℚ :=
  if b = 0 then .error "division by zero" else .ok (a / b)

-- A quick sanity check of the 64-bit wrap-around subtraction.
example : usub64 10 3 = 7 := by decide
example : usub64 0 1 = 2 ^ 64 - 1 := by decide

/-- A destroy or repair method: mutates a solution (functionally), or fails
with an exception, embedded as `Except String`.  This embeds the virtual
`operator()(Solution&)` of `DestroyMethod` / `RepairMethod` (`src/alns.h`). -/
def SolMethod (S : Type) : Type := S → Except String S

/-- Embedding of `as::alns::AlgorithmStatus` (`src/alns.h`).  The
Mersenne-Twister member `mt` is abstracted away (pivots are supplied
externally), and the reference to the parameters is passed separately. -/
structure AlgorithmStatus (S : Type) where
  iteration_number : Nat
  elapsed_time_sec : ℚ
  destroy_methods : List (SolMethod S)
  repair_methods : List (SolMethod S)
  destroy_scores : List ℚ
  repair_scores : List ℚ
  best_solution : S
  current_solution : S
  new_solution : S
  latest_destroy_id : Nat
  latest_repair_id : Nat

/-- Embedding of the `AlgorithmStatus` constructor (`src/alns.h`, lines
229-238).  The method vectors are default-initialised (empty) because they do
not appear in the member-initialiser list, and each score vector is built
with one entry of `1.0` per element of the *then-current* (empty) method
vector; the three solution slots are all copies of the initial solution. -/
def AlgorithmStatus.init {S : Type} (initial_solution : S) : AlgorithmStatus S :=
  let dms : List (SolMethod S) := []
  let rms : List (SolMethod S) := []
  { iteration_number := 0
    elapsed_time_sec := 0
    destroy_methods := dms
    repair_methods := rms
    destroy_scores := List.replicate dms.length 1
    repair_scores := List.replicate rms.length 1
    best_solution := initial_solution
    current_solution := initial_solution
    new_solution := initial_solution
    latest_destroy_id := 0
    latest_repair_id := 0 }

/-- The scanning loop of `as::rnd::roulette_wheel` (`src/random.h`): walk the
weights accumulating a running total `acc`; for every index except the last,
return that index as soon as the running total reaches the pivot; the last
index is the fallback.  `acc` plays the role of the C++ `partial`
accumulator, and the returned index is relative to the remaining list. -/
def rw_scan (pivot : ℚ) : ℚ → List ℚ → Nat
  | _, [] => 0
  | _, [_] => 0
  | acc, w :: rest =>
      if acc + w ≥ pivot then 0 else rw_scan pivot (acc + w) rest + 1

/-- Embedding of `as::rnd::roulette_wheel` (`src/random.h`).  The uniform
draw in `[0, sum)` is abstracted into the `pivot` argument.  The two
`assert`s of the source (all weights non-negative; the vector non-empty) are
embedded as `preconditionViolation`-style error branches, in source order. -/
def roulette_wheel (weights : List ℚ) (pivot : ℚ) : Except String Nat :=
  if ¬ weights.all (fun w => 0 ≤ w) then
    .error "roulette_wheel: negative weight"
  else if weights.isEmpty then
    .error "roulette_wheel: empty weights vector"
  else
    .ok (rw_scan pivot 0 weights)

/-- The sum of the first `i + 1` weights: the running total the source's scan
has accumulated just after processing index `i`. -/
def prefix_sum (weights : List ℚ) (i : Nat) : ℚ :=
  (weights.take (i + 1)).sum

/-- Embedding of `AlgorithmStatus::update_score` (`src/alns.h`, lines
344-347): multiply the score at `method_id` by the decay, then add
`(1 - decay) * multiplier` to it. -/
def update_score (params : AlgorithmParams) (method_id : Nat) (multiplier : ℚ)
    (scores : List ℚ) : List ℚ :=
  let s1 := scores.set method_id (scores.getD method_id 0 * params.score_decay)
  s1.set method_id (s1.getD method_id 0 + (1 - params.score_decay) * multiplier)

/-- Embedding of `AlgorithmStatus::update_score_best` (`src/alns.h`): update
the latest destroy and latest repair scores with the new-best multiplier. -/
def update_score_best {S : Type} (params : AlgorithmParams)
    (st : AlgorithmStatus S) : AlgorithmStatus S :=
  { st with
    destroy_scores :=
      update_score params st.latest_destroy_id params.new_best_multiplier st.destroy_scores
    repair_scores :=
      update_score params st.latest_repair_id params.new_best_multiplier st.repair_scores }

/-- Embedding of `AlgorithmStatus::update_score_improving` (`src/alns.h`). -/
def update_score_improving {S : Type} (params : AlgorithmParams)
    (st : AlgorithmStatus S) : AlgorithmStatus S :=
  { st with
    destroy_scores :=
      update_score params st.latest_destroy_id params.new_improving_multiplier st.destroy_scores
    repair_scores :=
      update_score params st.latest_repair_id params.new_improving_multiplier st.repair_scores }

/-- Embedding of `AlgorithmStatus::update_score_accepted` (`src/alns.h`). -/
def update_score_accepted {S : Type} (params : AlgorithmParams)
    (st : AlgorithmStatus S) : AlgorithmStatus S :=
  { st with
    destroy_scores :=
      update_score params st.latest_destroy_id params.new_accepted_multiplier st.destroy_scores
    repair_scores :=
      update_score params st.latest_repair_id params.new_accepted_multiplier st.repair_scores }

example : roulette_wheel [1/2, 1/2] (1/4) = .ok 0 := by with_unfolding_all rfl
example : roulette_wheel [0, 1] (1/2) = .ok 1 := by with_unfolding_all rfl
example : roulette_wheel [1] (77) = .ok 0 := by with_unfolding_all rfl
example : roulette_wheel [] 0 = .error "roulette_wheel: empty weights vector" := by
  with_unfolding_all rfl
example : update_score AlgorithmParams.default_params 0 10 [1, 1] = [19/10, 1] := by
  with_unfolding_all decide

/-- The ways a `solve()` call can fail.  A `preconditionViolation` embeds a
failed `assert` inside the engine (in particular the asserts of
`roulette_wheel`), while a `userError` embeds an exception thrown by a
user-supplied destroy/repair operator, acceptance criterion or visitor and
propagated unchanged through `solve()`.  The two are distinct constructors,
hence distinguishable by the caller. -/
inductive EngineError where
  | preconditionViolation : String → EngineError
  | userError : String → EngineError
deriving DecidableEq, Repr

/-- Result of one pass of the `while(true)` loop of `ALNSSolver::solve`
(`src/alns.h`): either the status after the pass together with the
continue/stop decision of the visitor, or an error together with the status
at the moment the error occurred. -/
inductive StepResult (S : Type) where
  | ok : AlgorithmStatus S → Bool → StepResult S
  | err : EngineError → AlgorithmStatus S → StepResult S

/-- Result of a fuel-bounded run of `ALNSSolver::solve`: the loop either
returned because the visitor said stop, failed with an error, or ran out of
fuel (the C++ loop is potentially infinite; claims about terminated runs
quantify over `stopped` results). -/
inductive RunResult (S : Type) where
  | stopped : AlgorithmStatus S → RunResult S
  | failed : EngineError → AlgorithmStatus S → RunResult S
  | out_of_fuel : AlgorithmStatus S → RunResult S

/-- Everything `ALNSSolver::solve` reads besides the mutable status: the
parameters, the cost function of the solution type, the acceptance criterion,
the visitor, and the abstracted sources of randomness and wall-clock time
(streams indexed by the iteration counter). -/
structure EngineCtx (S : Type) where
  params : AlgorithmParams
  cost : S → ℚ
  acceptance : AlgorithmStatus S → Except String Bool
  visitor : AlgorithmStatus S → Except String Bool
  pivots : Nat → ℚ × ℚ
  clock : Nat → ℚ

/-- Steps 1-3 of an iteration of `ALNSSolver::solve` (`src/alns.h`, lines
527-532): roulette-select a destroy and a repair method (recording their
indices, as `get_roulette_destroy` / `get_roulette_repair` do), copy the
current solution into the `new_solution` slot, then apply the destroy method
and the repair method to it in place.  Errors carry the status at the point
of failure. -/
def make_candidate {S : Type} (ctx : EngineCtx S) (st : AlgorithmStatus S) :
    Except (EngineError × AlgorithmStatus S) (AlgorithmStatus S) :=
  match roulette_wheel st.destroy_scores (ctx.pivots st.iteration_number).1 with
  | .error m => .error (.preconditionViolation m, st)
  | .ok di =>
    let st1 := { st with latest_destroy_id := di }
    match roulette_wheel st1.repair_scores (ctx.pivots st1.iteration_number).2 with
    | .error m => .error (.preconditionViolation m, st1)
    | .ok ri =>
      let st2 := { st1 with latest_repair_id := ri }
      match st2.destroy_methods[di]?, st2.repair_methods[ri]? with
      | none, _ => .error (.preconditionViolation "destroy method index out of range", st2)
      | _, none => .error (.preconditionViolation "repair method index out of range", st2)
      | some destroy, some repair =>
        let st3 := { st2 with new_solution := st2.current_solution }
        match destroy st3.new_solution with
        | .error m => .error (.userError m, st3)
        | .ok s1 =>
          let st4 := { st3 with new_solution := s1 }
          match repair st4.new_solution with
          | .error m => .error (.userError m, st4)
          | .ok s2 => .ok { st4 with new_solution := s2 }

/-- Step 5 of an iteration of `ALNSSolver::solve` (`src/alns.h`, lines
535-546), executed only when the acceptance criterion returned true: compare
the candidate's cost with the current and best costs, update the best
solution and the scores accordingly, then promote the candidate to the
current solution. -/
def accept_phase {S : Type} (ctx : EngineCtx S) (st : AlgorithmStatus S) :
    AlgorithmStatus S :=
  let st' :=
    if ctx.cost st.new_solution < ctx.cost st.current_solution then
      if ctx.cost st.new_solution < ctx.cost st.best_solution then
        update_score_best ctx.params { st with best_solution := st.new_solution }
      else
        update_score_improving ctx.params st
    else
      update_score_accepted ctx.params st
  { st' with current_solution := st'.new_solution }

/-- One full pass of the `while(true)` loop of `ALNSSolver::solve`
(`src/alns.h`, lines 526-556): build the candidate, consult the acceptance
criterion, conditionally run the accept phase, invoke the visitor, and — only
when the visitor says continue — refresh the elapsed time and increment the
iteration counter. -/
def alns_step {S : Type} (ctx : EngineCtx S) (st : AlgorithmStatus S) :
    StepResult S :=
  match make_candidate ctx st with
  | .error (e, st') => .err e st'
  | .ok st4 =>
    match ctx.acceptance st4 with
    | .error m => .err (.userError m) st4
    | .ok acc =>
      let st5 := if acc then accept_phase ctx st4 else st4
      match ctx.visitor st5 with
      | .error m => .err (.userError m) st5
      | .ok cont =>
        if cont then
          .ok { st5 with
                elapsed_time_sec := ctx.clock st5.iteration_number
                iteration_number := st5.iteration_number + 1 } true
        else
          .ok st5 false

/-- Fuel-bounded embedding of `ALNSSolver::solve` (`src/alns.h`): iterate
`alns_step` until the visitor stops the run, an error occurs, or the fuel is
exhausted. -/
def solve_loop {S : Type} (ctx : EngineCtx S) : Nat → AlgorithmStatus S → RunResult S
  | 0, st => .out_of_fuel st
  | fuel + 1, st =>
    match alns_step ctx st with
    | .err e st' => .failed e st'
    | .ok st' false => .stopped st'
    | .ok st' true => solve_loop ctx fuel st'

/-- The list of statuses observed after each completed iteration of a
fuel-bounded run (an observer over `solve_loop`, used to state per-iteration
invariants). -/
def solve_trace {S : Type} (ctx : EngineCtx S) : Nat → AlgorithmStatus S → List (AlgorithmStatus S)
  | 0, _ => []
  | fuel + 1, st =>
    match alns_step ctx st with
    | .err _ _ => []
    | .ok st' false => [st']
    | .ok st' true => st' :: solve_trace ctx fuel st'

/-- The final status of a run, when the run terminated normally. -/
def run_status {S : Type} : RunResult S → Option (AlgorithmStatus S)
  | .stopped st => some st
  | .failed _ _ => none
  | .out_of_fuel _ => none

/-- Embedding of `as::alns::ALNSSolver` (`src/alns.h`): the parameters and
the status.  (The acceptance criterion and the visitor, template members in
the source, are supplied to the loop through `EngineCtx`.) -/
structure ALNSSolver (S : Type) where
  params : AlgorithmParams
  status : AlgorithmStatus S

/-- Embedding of the `ALNSSolver` constructor (`src/alns.h`, lines 421-422):
store the parameters and build a fresh status from them and the initial
solution. -/
def ALNSSolver.make {S : Type} (params : AlgorithmParams) (initial_solution : S) :
    ALNSSolver S :=
  { params := params, status := AlgorithmStatus.init initial_solution }

/-- Embedding of `ALNSSolver::reset_status` (`src/alns.h`, lines 438-440):
replace the status wholesale with a freshly constructed
`AlgorithmStatus` built from the parameters and the new initial solution. -/
def ALNSSolver.reset_status {S : Type} (solver : ALNSSolver S) (initial_solution : S) :
    ALNSSolver S :=
  { solver with status := AlgorithmStatus.init initial_solution }

/-- Embedding of `ALNSSolver::add_destroy_method` (`src/alns.h`, lines
497-502): append the method, append an initial score of `1.0`, and return
the new method's index (the new pool size minus one). -/
def ALNSSolver.add_destroy_method {S : Type} (solver : ALNSSolver S)
    (method : SolMethod S) : ALNSSolver S × Nat :=
  let dms := solver.status.destroy_methods ++ [method]
  let dsc := solver.status.destroy_scores ++ [1]
  (⟨solver.params, { solver.status with destroy_methods := dms, destroy_scores := dsc }⟩,
   dms.length - 1)

/-- Embedding of `ALNSSolver::add_repair_method` (`src/alns.h`, lines
509-514). -/
def ALNSSolver.add_repair_method {S : Type} (solver : ALNSSolver S)
    (method : SolMethod S) : ALNSSolver S × Nat :=
  let rms := solver.status.repair_methods ++ [method]
  let rsc := solver.status.repair_scores ++ [1]
  (⟨solver.params, { solver.status with repair_methods := rms, repair_scores := rsc }⟩,
   rms.length - 1)

/-- Embedding of the data of `as::alns::LinearRecordToRecordTravel`
(`src/alns_acceptance.h`). -/
structure LinearRecordToRecordTravel where
  main_termination_criterion : MainTerminationCriterion
  iterations_limit : Nat
  time_limit : ℚ
  start_threshold : ℚ
  end_threshold : ℚ
deriving Repr

/-- Embedding of `LinearRecordToRecordTravel::operator()`
(`src/alns_acceptance.h`, lines 80-92): compute the threshold, compute the
relative gap `(new_cost - best_cost) / new_cost` — through the guarded
division, since the source divides unguarded — and accept iff the gap is at
most the threshold. -/
def lrrt_accept {S : Type} (cost : S → ℚ) (p : LinearRecordToRecordTravel)
    (st : AlgorithmStatus S) : Except String Bool := do
  let threshold := lrrt_threshold p.main_termination_criterion p.iterations_limit
    p.time_limit p.start_threshold p.end_threshold
    st.iteration_number st.elapsed_time_sec
  let gap ← safe_div (cost st.new_solution - cost st.best_solution) (cost st.new_solution)
  return gap ≤ threshold

/-- The default `LinearRecordToRecordTravel` constructor values
(`src/alns_acceptance.h`, lines 30-35). -/
def lrrt_default : LinearRecordToRecordTravel :=
  { main_termination_criterion := .iterations
    iterations_limit := 1000000
    time_limit := 3600
    start_threshold := 1/10
    end_threshold := 0 }

/-!
## Theorems settling the claims
-/

/-- **C1** (code bug). The claim says the acceptance threshold decays
linearly from `start_threshold` at iteration/time `0` to `end_threshold` at
the limit, i.e. `end + (start - end) * (limit - k) / limit`.  The source
instead computes `start + (start - end) * (limit - k)`: it omits the division
by the limit and uses `start_threshold` instead of `end_threshold` as the
base term.  At the failing input (iterations mode, `limit = 10`,
`start = 1/10`, `end = 0`, iteration `k = 0`, and the analogous time-mode
input with `time_limit = 10`, elapsed `0`) the source's threshold is `11/10`
while the spec's linear decay gives `1/10`; moreover at `k = limit` the
source yields `start_threshold`, not `end_threshold`. -/
theorem c1_lrrt_threshold_formula_bug :
    lrrt_threshold .iterations 10 3600 (1/10) 0 0 0 = 11/10 ∧
    spec_linear_threshold 10 (1/10) 0 0 = 1/10 ∧
    lrrt_threshold .iterations 10 3600 (1/10) 0 0 0 ≠ spec_linear_threshold 10 (1/10) 0 0 ∧
    lrrt_threshold .time 10 10 (1/10) 0 0 0 = 11/10 ∧
    lrrt_threshold .iterations 10 3600 (1/10) 0 10 0 = 1/10 ∧
    spec_linear_threshold 10 (1/10) 0 10 = 0 := by
  refine ⟨?_, ?_, ?_, ?_, ?_, ?_⟩ <;> with_unfolding_all decide

/-- **C9** (confirmed). For every status whose candidate (`new_solution`)
cost is zero, the `LinearRecordToRecordTravel` acceptance check reaches the
error branch of the guarded division embedding its unguarded gap computation
`(new_cost - best_cost) / new_cost`. -/
theorem c9_lrrt_zero_candidate_cost_divides_by_zero {S : Type} (cost : S → ℚ)
    (p : LinearRecordToRecordTravel) (st : AlgorithmStatus S)
    (h : cost st.new_solution = 0) :
    lrrt_accept cost p st = .error "division by zero" := by
  simp [lrrt_accept, safe_div, h]

/-- Witness for C9: a concrete status (over the trivial solution type, with
the all-zero cost function) on which the acceptance check errors out. -/
theorem c9_witness :
    lrrt_accept (fun _ : Unit => (0 : ℚ)) lrrt_default (AlgorithmStatus.init ()) =
      .error "division by zero" :=
  c9_lrrt_zero_candidate_cost_divides_by_zero (fun _ => 0) lrrt_default
    (AlgorithmStatus.init ()) rfl

/-- **C5** (confirmed). `update_score` replaces the score at the given index
with `old * decay + (1 - decay) * multiplier` (the decay being the
`score_decay` parameter) and leaves every other index unchanged; in the
engine, the three wrappers apply it at the latest destroy and repair indices
with the `new_best`, `new_improving` and `new_accepted` multipliers
respectively. -/
theorem c5_update_score_formula (params : AlgorithmParams) (scores : List ℚ)
    (method_id : Nat) (multiplier : ℚ) (h : method_id < scores.length) :
    ((update_score params method_id multiplier scores).getD method_id 0 =
        scores.getD method_id 0 * params.score_decay +
          (1 - params.score_decay) * multiplier) ∧
    (∀ j, j ≠ method_id →
        (update_score params method_id multiplier scores).getD j 0 = scores.getD j 0) ∧
    (∀ (S : Type) (st : AlgorithmStatus S),
        (update_score_best params st).destroy_scores =
            update_score params st.latest_destroy_id params.new_best_multiplier
              st.destroy_scores ∧
        (update_score_best params st).repair_scores =
            update_score params st.latest_repair_id params.new_best_multiplier
              st.repair_scores ∧
        (update_score_improving params st).destroy_scores =
            update_score params st.latest_destroy_id params.new_improving_multiplier
              st.destroy_scores ∧
        (update_score_improving params st).repair_scores =
            update_score params st.latest_repair_id params.new_improving_multiplier
              st.repair_scores ∧
        (update_score_accepted params st).destroy_scores =
            update_score params st.latest_destroy_id params.new_accepted_multiplier
              st.destroy_scores ∧
        (update_score_accepted params st).repair_scores =
            update_score params st.latest_repair_id params.new_accepted_multiplier
              st.repair_scores) := by
  refine ⟨?_, ?_, ?_⟩
  · have h' : method_id < (scores.set method_id
        (scores.getD method_id 0 * params.score_decay)).length := by
      simpa using h
    simp [update_score, List.getD_eq_getElem?_getD, List.getElem?_set_self, h, h']
  · intro j hj
    simp [update_score, List.getD_eq_getElem?_getD,
      List.getElem?_set_ne (Ne.symm hj)]
  · intro S st
    exact ⟨rfl, rfl, rfl, rfl, rfl, rfl⟩

/-- Witness for C5: the formula evaluated at a concrete two-element score
vector with the default parameters. -/
theorem c5_witness :
    ((update_score AlgorithmParams.default_params 0 10 [1, 1]).getD 0 0 =
        (1 : ℚ) * (9/10) + (1 - 9/10) * 10) ∧
    ((update_score AlgorithmParams.default_params 0 10 [1, 1]).getD 1 0 = 1) := by
  have H := c5_update_score_formula AlgorithmParams.default_params [1, 1] 0 10
    (by decide)
  refine ⟨?_, ?_⟩
  · have := H.1
    simpa [AlgorithmParams.default_params] using this
  · have := H.2.1 1 (by decide)
    simpa using this

/-- **C2** (corrected). Counterexample to the claim as stated: the claim says
`reset_status` leaves the registered operator pools unchanged, but the source
replaces the whole status with a freshly constructed `AlgorithmStatus`, whose
method vectors are default-initialised empty.  Concretely: a solver with one
registered destroy method has, after `reset_status`, an empty destroy-method
pool (and likewise an empty score vector), not a one-element pool. -/
theorem c2_counterexample :
    ((((ALNSSolver.make AlgorithmParams.default_params ()).add_destroy_method
          (fun s => .ok s)).1).status.destroy_methods.length = 1) ∧
    (((((ALNSSolver.make AlgorithmParams.default_params ()).add_destroy_method
          (fun s => .ok s)).1).reset_status ()).status.destroy_methods.length = 0) ∧
    (1 : Nat) ≠ 0 :=
  ⟨rfl, rfl, one_ne_zero⟩

/-- **C2** (amended). `reset_status(s)` yields a status with iteration
number `0`, elapsed time `0`, current and best solution equal to `s`, and
*empty* destroy- and repair-method pools with *empty* score vectors: the
previously registered operators are discarded by the reset, not preserved.
The solver's parameters are kept. -/
theorem c2_reset_status_amended {S : Type} (solver : ALNSSolver S) (s : S) :
    ((solver.reset_status s).status.iteration_number = 0) ∧
    ((solver.reset_status s).status.elapsed_time_sec = 0) ∧
    ((solver.reset_status s).status.current_solution = s) ∧
    ((solver.reset_status s).status.best_solution = s) ∧
    ((solver.reset_status s).status.new_solution = s) ∧
    ((solver.reset_status s).status.destroy_methods = []) ∧
    ((solver.reset_status s).status.repair_methods = []) ∧
    ((solver.reset_status s).status.destroy_scores = []) ∧
    ((solver.reset_status s).status.repair_scores = []) ∧
    ((solver.reset_status s).params = solver.params) :=
  ⟨rfl, rfl, rfl, rfl, rfl, rfl, rfl, rfl, rfl, rfl⟩

/-- **C10** (confirmed). At construction the method pools and score vectors
are empty (hence aligned), and each `add_destroy_method` /
`add_repair_method` call preserves the alignment (one score entry per
registered method, on both pools), returns the index of the newly added
method (the new pool size minus one), and installs a score of `1.0` at that
index. -/
theorem c10_pool_and_scores_aligned {S : Type} :
    (∀ (params : AlgorithmParams) (s : S),
        (ALNSSolver.make params s).status.destroy_methods.length =
            (ALNSSolver.make params s).status.destroy_scores.length ∧
        (ALNSSolver.make params s).status.repair_methods.length =
            (ALNSSolver.make params s).status.repair_scores.length) ∧
    (∀ (solver : ALNSSolver S) (m : SolMethod S),
        solver.status.destroy_methods.length = solver.status.destroy_scores.length →
        ((solver.add_destroy_method m).1.status.destroy_methods.length =
            (solver.add_destroy_method m).1.status.destroy_scores.length ∧
          (solver.add_destroy_method m).1.status.repair_methods =
            solver.status.repair_methods ∧
          (solver.add_destroy_method m).1.status.repair_scores =
            solver.status.repair_scores ∧
          (solver.add_destroy_method m).2 =
            (solver.add_destroy_method m).1.status.destroy_methods.length - 1 ∧
          (solver.add_destroy_method m).1.status.destroy_scores.getD
            (solver.add_destroy_method m).2 0 = 1)) ∧
    (∀ (solver : ALNSSolver S) (m : SolMethod S),
        solver.status.repair_methods.length = solver.status.repair_scores.length →
        ((solver.add_repair_method m).1.status.repair_methods.length =
            (solver.add_repair_method m).1.status.repair_scores.length ∧
          (solver.add_repair_method m).1.status.destroy_methods =
            solver.status.destroy_methods ∧
          (solver.add_repair_method m).1.status.destroy_scores =
            solver.status.destroy_scores ∧
          (solver.add_repair_method m).2 =
            (solver.add_repair_method m).1.status.repair_methods.length - 1 ∧
          (solver.add_repair_method m).1.status.repair_scores.getD
            (solver.add_repair_method m).2 0 = 1)) := by
  refine ⟨fun params s => ⟨rfl, rfl⟩, ?_, ?_⟩
  · intro solver m hlen
    refine ⟨by simp [ALNSSolver.add_destroy_method, hlen], rfl, rfl, rfl, ?_⟩
    simp [ALNSSolver.add_destroy_method, hlen, List.getD_eq_getElem?_getD,
      List.getElem?_append_right]
  · intro solver m hlen
    refine ⟨by simp [ALNSSolver.add_repair_method, hlen], rfl, rfl, rfl, ?_⟩
    simp [ALNSSolver.add_repair_method, hlen, List.getD_eq_getElem?_getD,
      List.getElem?_append_right]

/-- Witness for C10: a concrete solver over the trivial solution type with
one destroy method added; the alignment, the returned index and the initial
score are checked on it. -/
theorem c10_witness :
    (((ALNSSolver.make AlgorithmParams.default_params ()).add_destroy_method
        (fun s => .ok s)).1.status.destroy_methods.length =
      ((ALNSSolver.make AlgorithmParams.default_params ()).add_destroy_method
        (fun s => .ok s)).1.status.destroy_scores.length) ∧
    (((ALNSSolver.make AlgorithmParams.default_params ()).add_destroy_method
        (fun s => .ok s)).2 =
      ((ALNSSolver.make AlgorithmParams.default_params ()).add_destroy_method
        (fun s => .ok s)).1.status.destroy_methods.length - 1) ∧
    (((ALNSSolver.make AlgorithmParams.default_params ()).add_destroy_method
        (fun s => .ok s)).1.status.destroy_scores.getD
      ((ALNSSolver.make AlgorithmParams.default_params ()).add_destroy_method
        (fun s => .ok s)).2 0 = 1) := by
  have H := (c10_pool_and_scores_aligned (S := Unit)).2.1
    (ALNSSolver.make AlgorithmParams.default_params ()) (fun s => .ok s) rfl
  exact ⟨H.1, H.2.2.2.1, H.2.2.2.2⟩

/-- Steps 1-3 only touch the candidate slot and the latest-operator indices:
every other field of the status survives `make_candidate` unchanged. -/
theorem make_candidate_frame {S : Type} (ctx : EngineCtx S)
    (st st4 : AlgorithmStatus S) (h : make_candidate ctx st = .ok st4) :
    st4.iteration_number = st.iteration_number ∧
    st4.elapsed_time_sec = st.elapsed_time_sec ∧
    st4.destroy_methods = st.destroy_methods ∧
    st4.repair_methods = st.repair_methods ∧
    st4.destroy_scores = st.destroy_scores ∧
    st4.repair_scores = st.repair_scores ∧
    st4.best_solution = st.best_solution ∧
    st4.current_solution = st.current_solution := by
  simp only [make_candidate] at h
  repeat' split at h
  all_goals first
    | exact Except.noConfusion h
    | (injection h with h2; subst h2
       exact ⟨rfl, rfl, rfl, rfl, rfl, rfl, rfl, rfl⟩)

/-- The accept phase preserves the invariant `best cost ≤ current cost`. -/
theorem accept_phase_best_le_current {S : Type} (ctx : EngineCtx S)
    (st : AlgorithmStatus S)
    (h : ctx.cost st.best_solution ≤ ctx.cost st.current_solution) :
    ctx.cost (accept_phase ctx st).best_solution ≤
      ctx.cost (accept_phase ctx st).current_solution := by
  unfold accept_phase
  split
  · split
    · simp [update_score_best]
    · rename_i hnb
      simpa [update_score_improving] using not_lt.mp hnb
  · rename_i hnc
    simpa [update_score_accepted] using le_trans h (not_lt.mp hnc)

/-- Every successful pass of the loop decomposes into: a candidate stage, an
acceptance verdict, the optional accept phase, a visitor verdict, and — only
when the visitor continues — the time/iteration bookkeeping. -/
theorem alns_step_ok_shape {S : Type} (ctx : EngineCtx S)
    (st st' : AlgorithmStatus S) (c : Bool) (h : alns_step ctx st = .ok st' c) :
    ∃ st4 acc st5, make_candidate ctx st = .ok st4 ∧
      ctx.acceptance st4 = .ok acc ∧
      st5 = (if acc then accept_phase ctx st4 else st4) ∧
      ctx.visitor st5 = .ok c ∧
      (st' = st5 ∨
        st' = { st5 with elapsed_time_sec := ctx.clock st5.iteration_number,
                         iteration_number := st5.iteration_number + 1 }) := by
  simp only [alns_step] at h
  split at h
  · exact StepResult.noConfusion h
  next st4 hmc =>
    split at h
    · exact StepResult.noConfusion h
    next acc hacc =>
      split at h
      · exact StepResult.noConfusion h
      next cont hvis =>
        split at h
        next hc =>
          subst hc
          injection h with h1 h2
          subst h1
          subst h2
          exact ⟨st4, acc, _, hmc, hacc, rfl, hvis, Or.inr rfl⟩
        next hc =>
          have hc' : cont = false := by simpa using hc
          subst hc'
          injection h with h1 h2
          subst h1
          subst h2
          exact ⟨st4, acc, _, hmc, hacc, rfl, hvis, Or.inl rfl⟩

/-- One completed pass of the loop preserves `best cost ≤ current cost`. -/
theorem alns_step_best_le_current {S : Type} (ctx : EngineCtx S)
    (st st' : AlgorithmStatus S) (c : Bool)
    (hinv : ctx.cost st.best_solution ≤ ctx.cost st.current_solution)
    (h : alns_step ctx st = .ok st' c) :
    ctx.cost st'.best_solution ≤ ctx.cost st'.current_solution := by
  obtain ⟨st4, acc, st5, hmc, hacc, hst5, hvis, hst'⟩ :=
    alns_step_ok_shape ctx st st' c h
  have hf := make_candidate_frame ctx st st4 hmc
  have h4 : ctx.cost st4.best_solution ≤ ctx.cost st4.current_solution := by
    rw [hf.2.2.2.2.2.2.1, hf.2.2.2.2.2.2.2]
    exact hinv
  have h5 : ctx.cost st5.best_solution ≤ ctx.cost st5.current_solution := by
    subst hst5
    cases acc
    · simpa using h4
    · simpa using accept_phase_best_le_current ctx st4 h4
  rcases hst' with he | he <;> subst he
  · exact h5
  · exact h5

/-- The invariant `best cost ≤ current cost`, once it holds, holds for the
status observed after every completed iteration of a run. -/
theorem solve_trace_best_le_current {S : Type} (ctx : EngineCtx S) :
    ∀ (fuel : Nat) (st : AlgorithmStatus S),
      ctx.cost st.best_solution ≤ ctx.cost st.current_solution →
      ∀ st' ∈ solve_trace ctx fuel st,
        ctx.cost st'.best_solution ≤ ctx.cost st'.current_solution := by
  intro fuel
  induction fuel with
  | zero =>
    intro st _ st' hmem
    simp [solve_trace] at hmem
  | succ n ih =>
    intro st hinv st' hmem
    unfold solve_trace at hmem
    split at hmem
    · simp at hmem
    next stx heq =>
      simp only [List.mem_singleton] at hmem
      subst hmem
      exact alns_step_best_le_current ctx st st' false hinv heq
    next stx heq =>
      rcases List.mem_cons.mp hmem with h1 | h2
      · subst h1
        exact alns_step_best_le_current ctx st st' true hinv heq
      · exact ih stx (alns_step_best_le_current ctx st stx true hinv heq) st' h2

/-- **C3** (confirmed). For every run of the loop started from a status whose
best solution equals its current solution, the invariant
`best cost ≤ current cost` holds after every completed iteration.  (The
acceptance criterion and the visitor are embedded as pure predicates, which
is exactly the claim's assumption that they do not modify the solutions
stored in the status.) -/
theorem c3_best_le_current_invariant {S : Type} (ctx : EngineCtx S)
    (fuel : Nat) (st : AlgorithmStatus S)
    (h0 : st.best_solution = st.current_solution) :
    ∀ st' ∈ solve_trace ctx fuel st,
      ctx.cost st'.best_solution ≤ ctx.cost st'.current_solution :=
  solve_trace_best_le_current ctx fuel st (by rw [h0])

/-- A concrete engine context over integer solutions (cost is the integer
itself): destroy adds `2`, repair subtracts `3`, everything is accepted, and
the visitor stops once the iteration counter reaches `3`. -/
def c3w_ctx : EngineCtx ℤ :=
  { params := AlgorithmParams.default_params
    cost := fun z => (z : ℚ)
    acceptance := fun _ => .ok true
    visitor := fun st => .ok (decide (st.iteration_number < 3))
    pivots := fun _ => (0, 0)
    clock := fun _ => 0 }

/-- A concrete starting status for the context above: one destroy and one
repair method, both scores `1`, all three solution slots at `10`. -/
def c3w_status : AlgorithmStatus ℤ :=
  { AlgorithmStatus.init 10 with
    destroy_methods := [fun s => .ok (s + 2)]
    repair_methods := [fun s => .ok (s - 3)]
    destroy_scores := [1]
    repair_scores := [1] }

/-- The status after the first completed iteration of the concrete run. -/
def c3w_head : AlgorithmStatus ℤ :=
  (solve_trace c3w_ctx 2 c3w_status).getD 0 (AlgorithmStatus.init 0)

/-- Witness for C3: the invariant checked on the status after the first
completed iteration of the concrete run. -/
theorem c3_witness :
    c3w_ctx.cost c3w_head.best_solution ≤ c3w_ctx.cost c3w_head.current_solution := by
  have H := c3_best_le_current_invariant c3w_ctx 2 c3w_status rfl
  refine H c3w_head ?_
  with_unfolding_all exact List.Mem.head _

/-- A pass whose acceptance verdict is false leaves current, best and all
scores (and the method pools) unchanged. -/
theorem alns_step_rejected_frame {S : Type} (ctx : EngineCtx S)
    (st st4 st' : AlgorithmStatus S) (c : Bool)
    (hmc : make_candidate ctx st = .ok st4)
    (hacc : ctx.acceptance st4 = .ok false)
    (h : alns_step ctx st = .ok st' c) :
    st'.current_solution = st.current_solution ∧
    st'.best_solution = st.best_solution ∧
    st'.destroy_scores = st.destroy_scores ∧
    st'.repair_scores = st.repair_scores ∧
    st'.destroy_methods = st.destroy_methods ∧
    st'.repair_methods = st.repair_methods := by
  obtain ⟨st4', acc, st5, hmc', hacc', hst5, hvis, hst'⟩ :=
    alns_step_ok_shape ctx st st' c h
  rw [hmc] at hmc'
  injection hmc' with he
  subst he
  rw [hacc] at hacc'
  injection hacc' with ha
  subst ha
  simp only [Bool.false_eq_true, if_false] at hst5
  subst hst5
  have hf := make_candidate_frame ctx st _ hmc
  rcases hst' with he | he <;> subst he <;>
    exact ⟨hf.2.2.2.2.2.2.2, hf.2.2.2.2.2.2.1, hf.2.2.2.2.1, hf.2.2.2.2.2.1,
      hf.2.2.1, hf.2.2.2.1⟩

/-- Under an acceptance criterion that always rejects, a terminated or
fuel-exhausted run leaves current, best and both score vectors exactly as
they started. -/
theorem solve_loop_const_false_frame {S : Type} (ctx : EngineCtx S)
    (hA : ∀ σ, ctx.acceptance σ = .ok false) :
    ∀ (fuel : Nat) (st st' : AlgorithmStatus S),
      (solve_loop ctx fuel st = .stopped st' ∨
        solve_loop ctx fuel st = .out_of_fuel st') →
      st'.current_solution = st.current_solution ∧
      st'.best_solution = st.best_solution ∧
      st'.destroy_scores = st.destroy_scores ∧
      st'.repair_scores = st.repair_scores := by
  intro fuel
  induction fuel with
  | zero =>
    intro st st' h
    rcases h with h | h
    · exact RunResult.noConfusion h
    · injection h with he
      subst he
      exact ⟨rfl, rfl, rfl, rfl⟩
  | succ n ih =>
    intro st st' h
    have hstep : ∀ stx c, alns_step ctx st = .ok stx c →
        stx.current_solution = st.current_solution ∧
        stx.best_solution = st.best_solution ∧
        stx.destroy_scores = st.destroy_scores ∧
        stx.repair_scores = st.repair_scores := by
      intro stx c hs
      obtain ⟨st4, acc, st5, hmc, hacc, _, _, _⟩ := alns_step_ok_shape ctx st stx c hs
      have hfr := alns_step_rejected_frame ctx st st4 stx c hmc (hA st4) hs
      exact ⟨hfr.1, hfr.2.1, hfr.2.2.1, hfr.2.2.2.1⟩
    unfold solve_loop at h
    rcases h with h | h
    · split at h
      · exact RunResult.noConfusion h
      next stx heq =>
        injection h with he
        subst he
        exact hstep _ false heq
      next stx heq =>
        have hrec := ih stx st' (Or.inl h)
        have hfr := hstep stx true heq
        exact ⟨hrec.1.trans hfr.1, hrec.2.1.trans hfr.2.1,
          hrec.2.2.1.trans hfr.2.2.1, hrec.2.2.2.trans hfr.2.2.2⟩
    · split at h
      · exact RunResult.noConfusion h
      next stx heq => exact RunResult.noConfusion h
      next stx heq =>
        have hrec := ih stx st' (Or.inr h)
        have hfr := hstep stx true heq
        exact ⟨hrec.1.trans hfr.1, hrec.2.1.trans hfr.2.1,
          hrec.2.2.1.trans hfr.2.2.1, hrec.2.2.2.trans hfr.2.2.2⟩

/-- **C4** (confirmed). First conjunct: an iteration on which the acceptance
criterion returns false leaves the current solution, the best solution, both
score vectors and both method pools exactly unchanged (only the candidate
slot, the latest-operator indices, the elapsed time and the iteration
counter may change).  Second conjunct: consequently, with an acceptance
criterion that always returns false, a run that stops (or exhausts its fuel
after `N` iterations) still has current and best equal to the initial
solution and the score vectors it started with — in particular, scores that
started at `1.0` are still `1.0`. -/
theorem c4_rejected_iteration_frame :
    (∀ (S : Type) (ctx : EngineCtx S) (st st4 st' : AlgorithmStatus S) (c : Bool),
        make_candidate ctx st = .ok st4 →
        ctx.acceptance st4 = .ok false →
        alns_step ctx st = .ok st' c →
        st'.current_solution = st.current_solution ∧
        st'.best_solution = st.best_solution ∧
        st'.destroy_scores = st.destroy_scores ∧
        st'.repair_scores = st.repair_scores ∧
        st'.destroy_methods = st.destroy_methods ∧
        st'.repair_methods = st.repair_methods) ∧
    (∀ (S : Type) (ctx : EngineCtx S),
        (∀ σ, ctx.acceptance σ = .ok false) →
        ∀ (fuel : Nat) (st st' : AlgorithmStatus S),
          (solve_loop ctx fuel st = .stopped st' ∨
            solve_loop ctx fuel st = .out_of_fuel st') →
          st'.current_solution = st.current_solution ∧
          st'.best_solution = st.best_solution ∧
          st'.destroy_scores = st.destroy_scores ∧
          st'.repair_scores = st.repair_scores) :=
  ⟨fun _ ctx st st4 st' c hmc hacc h =>
      alns_step_rejected_frame ctx st st4 st' c hmc hacc h,
   fun _ ctx hA fuel st st' h =>
      solve_loop_const_false_frame ctx hA fuel st st' h⟩

/-- A concrete always-reject context over the trivial solution type: the
acceptance criterion and the visitor both always return false. -/
def c4w_ctx : EngineCtx Unit :=
  { params := AlgorithmParams.default_params
    cost := fun _ => 0
    acceptance := fun _ => .ok false
    visitor := fun _ => .ok false
    pivots := fun _ => (0, 0)
    clock := fun _ => 0 }

/-- A concrete starting status for the always-reject context: one destroy
and one repair method, both scores `1`. -/
def c4w_status : AlgorithmStatus Unit :=
  { AlgorithmStatus.init () with
    destroy_methods := [fun s => .ok s]
    repair_methods := [fun s => .ok s]
    destroy_scores := [1]
    repair_scores := [1] }

/-- Witness for C4: on the concrete always-reject run, the hypotheses of
both conjuncts hold and the frame conclusions follow by applying the
theorem. -/
theorem c4_witness :
    (make_candidate c4w_ctx c4w_status = .ok c4w_status ∧
      c4w_ctx.acceptance c4w_status = .ok false ∧
      alns_step c4w_ctx c4w_status = .ok c4w_status false ∧
      solve_loop c4w_ctx 5 c4w_status = .stopped c4w_status) ∧
    (c4w_status.current_solution = c4w_status.current_solution ∧
      c4w_status.best_solution = c4w_status.best_solution ∧
      c4w_status.destroy_scores = c4w_status.destroy_scores ∧
      c4w_status.repair_scores = c4w_status.repair_scores) := by
  have hmc : make_candidate c4w_ctx c4w_status = .ok c4w_status := by
    with_unfolding_all rfl
  have hacc : c4w_ctx.acceptance c4w_status = .ok false := rfl
  have hstep : alns_step c4w_ctx c4w_status = .ok c4w_status false := by
    with_unfolding_all rfl
  have hloop : solve_loop c4w_ctx 5 c4w_status = .stopped c4w_status := by
    with_unfolding_all rfl
  have Ha := c4_rejected_iteration_frame.1 Unit c4w_ctx c4w_status c4w_status
    c4w_status false hmc hacc hstep
  have Hb := c4_rejected_iteration_frame.2 Unit c4w_ctx (fun _ => rfl) 5
    c4w_status c4w_status (Or.inl hloop)
  exact ⟨⟨hmc, hacc, hstep, hloop⟩, Hb⟩

/-- **C7** (confirmed). First conjunct: `solve` on a status with zero
registered destroy operators fails at once with a precondition-violation
error (the failed `assert` of `roulette_wheel` on the empty score vector),
returning the input status itself — no iteration has run and no solution
slot has been touched.  Second conjunct: likewise with zero repair operators
(and a well-formed destroy pool); only the latest-destroy index can have
changed, every solution slot, the iteration counter and all pools and scores
are intact.  Third conjunct: a precondition violation is distinguishable
from an error raised inside a user-supplied operator, acceptance criterion
or visitor. -/
theorem c7_empty_pool_fails_fast :
    (∀ (S : Type) (ctx : EngineCtx S) (st : AlgorithmStatus S) (fuel : Nat),
        st.destroy_methods = [] → st.destroy_scores = [] →
        solve_loop ctx (fuel + 1) st =
          .failed (.preconditionViolation "roulette_wheel: empty weights vector") st) ∧
    (∀ (S : Type) (ctx : EngineCtx S) (st : AlgorithmStatus S) (fuel : Nat),
        st.repair_methods = [] → st.repair_scores = [] →
        (∀ w ∈ st.destroy_scores, 0 ≤ w) → st.destroy_scores ≠ [] →
        ∃ st1, solve_loop ctx (fuel + 1) st =
            .failed (.preconditionViolation "roulette_wheel: empty weights vector") st1 ∧
          st1.current_solution = st.current_solution ∧
          st1.best_solution = st.best_solution ∧
          st1.new_solution = st.new_solution ∧
          st1.iteration_number = st.iteration_number ∧
          st1.destroy_methods = st.destroy_methods ∧
          st1.repair_methods = st.repair_methods ∧
          st1.destroy_scores = st.destroy_scores ∧
          st1.repair_scores = st.repair_scores) ∧
    (∀ m m', EngineError.preconditionViolation m ≠ EngineError.userError m') := by
  refine ⟨?_, ?_, fun m m' h => EngineError.noConfusion h⟩
  · intro S ctx st fuel hdm hds
    have h1 : roulette_wheel st.destroy_scores (ctx.pivots st.iteration_number).1 =
        .error "roulette_wheel: empty weights vector" := by
      rw [hds]; rfl
    unfold solve_loop
    simp [alns_step, make_candidate, h1]
  · intro S ctx st fuel hrm hrs hnn hne
    have hall : st.destroy_scores.all (fun w => decide (0 ≤ w)) = true := by
      rw [List.all_eq_true]
      intro w hw
      exact decide_eq_true (hnn w hw)
    have h1 : roulette_wheel st.destroy_scores (ctx.pivots st.iteration_number).1 =
        .ok (rw_scan (ctx.pivots st.iteration_number).1 0 st.destroy_scores) := by
      unfold roulette_wheel
      rw [if_neg (by simp [hall]), if_neg (by simp [List.isEmpty_iff, hne])]
    have h2 : roulette_wheel st.repair_scores (ctx.pivots st.iteration_number).2 =
        .error "roulette_wheel: empty weights vector" := by
      rw [hrs]; rfl
    refine ⟨{ st with latest_destroy_id := rw_scan (ctx.pivots st.iteration_number).1 0 st.destroy_scores }, ?_, rfl, rfl, rfl, rfl, rfl, rfl, rfl, rfl⟩
    unfold solve_loop
    simp [alns_step, make_candidate, h1, h2]

/-- A status with one destroy method but an empty repair pool, for the
second conjunct of the C7 witness. -/
def c7w_status : AlgorithmStatus Unit :=
  { AlgorithmStatus.init () with
    destroy_methods := [fun s => .ok s]
    destroy_scores := [1] }

/-- Witness for C7: a freshly constructed status (both pools empty) makes
`solve` fail at once with the precondition violation and an untouched
status; a status with only the repair pool empty fails the same way; and the
precondition violation differs from a sample user error. -/
theorem c7_witness :
    (solve_loop c4w_ctx 1 (AlgorithmStatus.init ()) =
      .failed (.preconditionViolation "roulette_wheel: empty weights vector")
        (AlgorithmStatus.init ())) ∧
    (∃ st1, solve_loop c4w_ctx 1 c7w_status =
        .failed (.preconditionViolation "roulette_wheel: empty weights vector") st1 ∧
      st1.current_solution = c7w_status.current_solution ∧
      st1.best_solution = c7w_status.best_solution ∧
      st1.new_solution = c7w_status.new_solution ∧
      st1.iteration_number = c7w_status.iteration_number ∧
      st1.destroy_methods = c7w_status.destroy_methods ∧
      st1.repair_methods = c7w_status.repair_methods ∧
      st1.destroy_scores = c7w_status.destroy_scores ∧
      st1.repair_scores = c7w_status.repair_scores) ∧
    EngineError.preconditionViolation "roulette_wheel: empty weights vector" ≠
      EngineError.userError "user exception" := by
  refine ⟨c7_empty_pool_fails_fast.1 Unit c4w_ctx (AlgorithmStatus.init ()) 0 rfl rfl,
    c7_empty_pool_fails_fast.2.1 Unit c4w_ctx c7w_status 0 rfl rfl ?_ ?_,
    c7_empty_pool_fails_fast.2.2 _ _⟩
  · intro w hw
    simp only [c7w_status, List.mem_singleton] at hw
    subst hw
    exact zero_le_one
  · intro h
    simp [c7w_status] at h

/-- Characterisation of the scanning loop: for non-empty weights, the result
is in range, every earlier index left the running total strictly below the
pivot, and either the running total reaches the pivot at the returned index
or the returned index is the last-position fallback. -/
theorem rw_scan_reaches_pivot (pivot : ℚ) :
    ∀ (ws : List ℚ) (acc : ℚ), ws ≠ [] →
      rw_scan pivot acc ws < ws.length ∧
      (∀ j, j < rw_scan pivot acc ws → acc + (ws.take (j + 1)).sum < pivot) ∧
      (pivot ≤ acc + (ws.take (rw_scan pivot acc ws + 1)).sum ∨
        rw_scan pivot acc ws = ws.length - 1) := by
  intro ws
  induction ws with
  | nil => intro acc h; exact absurd rfl h
  | cons w rest ih =>
    intro acc _
    cases rest with
    | nil =>
      refine ⟨by simp [rw_scan], ?_, Or.inr rfl⟩
      intro j hj
      simp [rw_scan] at hj
    | cons w2 rest2 =>
      by_cases hp : acc + w ≥ pivot
      · have h0 : rw_scan pivot acc (w :: w2 :: rest2) = 0 := by
          simp [rw_scan, hp]
        rw [h0]
        refine ⟨by simp, ?_, Or.inl ?_⟩
        · intro j hj
          exact absurd hj (Nat.not_lt_zero j)
        · simpa using hp
      · have heq : rw_scan pivot acc (w :: w2 :: rest2) =
            rw_scan pivot (acc + w) (w2 :: rest2) + 1 := by
          simp [rw_scan, hp]
        obtain ⟨ih1, ih2, ih3⟩ := ih (acc + w) (by simp)
        rw [heq]
        refine ⟨by simpa using Nat.succ_lt_succ ih1, ?_, ?_⟩
        · intro j hj
          cases j with
          | zero => simpa using not_le.mp hp
          | succ j' =>
            have hj' : j' < rw_scan pivot (acc + w) (w2 :: rest2) := by omega
            have hih := ih2 j' hj'
            simpa [List.take_succ_cons, List.sum_cons, add_assoc] using hih
        · rcases ih3 with h3 | h3
          · left
            simpa [List.take_succ_cons, List.sum_cons, add_assoc] using h3
          · right
            simp only [List.length_cons] at h3 ⊢
            omega

/-- **C6** (confirmed). For every non-empty vector of non-negative weights
and every pivot, the roulette wheel succeeds and returns the first index at
which the accumulated prefix sum reaches the pivot, falling back to the last
index when no scanned prefix reaches it; in particular the returned index is
always in `[0, len)`.  (The uniform draw of the pivot from `[0, sum)` is
abstracted into the `pivot` argument.) -/
theorem c6_roulette_wheel_selects_first_reaching_index (weights : List ℚ)
    (pivot : ℚ) (hne : weights ≠ []) (hnn : ∀ w ∈ weights, 0 ≤ w) :
    ∃ r, roulette_wheel weights pivot = .ok r ∧ r < weights.length ∧
      (∀ j, j < r → prefix_sum weights j < pivot) ∧
      (pivot ≤ prefix_sum weights r ∨ r = weights.length - 1) := by
  have hall : weights.all (fun w => decide (0 ≤ w)) = true := by
    rw [List.all_eq_true]
    intro w hw
    exact decide_eq_true (hnn w hw)
  have hrw : roulette_wheel weights pivot = .ok (rw_scan pivot 0 weights) := by
    unfold roulette_wheel
    rw [if_neg (by simp [hall]), if_neg (by simp [List.isEmpty_iff, hne])]
  obtain ⟨h1, h2, h3⟩ := rw_scan_reaches_pivot pivot weights 0 hne
  refine ⟨rw_scan pivot 0 weights, hrw, h1, ?_, ?_⟩
  · intro j hj
    have := h2 j hj
    simpa [prefix_sum] using this
  · simpa [prefix_sum] using h3

/-- Witness for C6: the characterisation applied to the concrete weight
vector `[1/2, 1/2]` with pivot `1/4`. -/
theorem c6_witness :
    ∃ r, roulette_wheel [1/2, 1/2] (1/4) = .ok r ∧
      r < ([1/2, 1/2] : List ℚ).length ∧
      (∀ j, j < r → prefix_sum [1/2, 1/2] j < 1/4) ∧
      (1/4 ≤ prefix_sum [1/2, 1/2] r ∨ r = ([1/2, 1/2] : List ℚ).length - 1) := by
  refine c6_roulette_wheel_selects_first_reaching_index [1/2, 1/2] (1/4)
    (by simp) ?_
  intro w hw
  rcases List.mem_pair.mp hw with h | h <;> subst h <;> norm_num

/-- Parameters for the C8 scenario (the scenario fixes the operators, the
acceptance criterion and the visitor, but not the score parameters; these
keep the scores constant, which keeps the bookkeeping readable). -/
def c8_params : AlgorithmParams :=
  { score_decay := 1
    new_best_multiplier := 0
    new_improving_multiplier := 0
    new_accepted_multiplier := 0 }

/-- The C8 scenario context over integer solutions (cost is the integer
itself, as a rational): a single destroy/repair pair whose net effect lowers
the cost by exactly `1` (destroy is the identity, repair subtracts `1`), an
acceptance criterion that accepts everything, and a visitor that returns
false exactly when the iteration counter equals `100`. -/
def c8_ctx : EngineCtx ℤ :=
  { params := c8_params
    cost := fun z => (z : ℚ)
    acceptance := fun _ => .ok true
    visitor := fun st => .ok (st.iteration_number != 100)
    pivots := fun _ => (0, 0)
    clock := fun _ => 0 }

/-- The C8 scenario solver: initial solution of cost `1000`, one destroy and
one repair method registered through the engine's registration calls. -/
def c8_solver : ALNSSolver ℤ :=
  (((ALNSSolver.make c8_params 1000).add_destroy_method
      (fun s => .ok s)).1.add_repair_method (fun s => .ok (s - 1))).1

/-- The status of the C8 scenario run at the start of pass `k`: `k` passes
are complete, the best and current solutions are `1000 - k`, and the
candidate slot holds the last accepted candidate (which is also `1000 - k`;
at `k = 0` it is the initial copy `1000 = 1000 - 0`). -/
def c8_state (k : Nat) : AlgorithmStatus ℤ :=
  { iteration_number := k
    elapsed_time_sec := 0
    destroy_methods := [fun s => .ok s]
    repair_methods := [fun s => .ok (s - 1)]
    destroy_scores := [1]
    repair_scores := [1]
    best_solution := 1000 - (k : ℤ)
    current_solution := 1000 - (k : ℤ)
    new_solution := 1000 - (k : ℤ)
    latest_destroy_id := 0
    latest_repair_id := 0 }

/-- The status with which the C8 scenario run stops: the pass that started
at iteration counter `100` accepted a 101st improvement and was then stopped
by the visitor, before the counter could be incremented. -/
def c8_stop_state : AlgorithmStatus ℤ :=
  { c8_state 101 with iteration_number := 100 }

/-- The C8 scenario run: plenty of fuel for the 101 passes the scenario
takes before the visitor stops it. -/
def c8_run : RunResult ℤ := solve_loop c8_ctx 200 c8_solver.status

/-- The final status of the C8 scenario run. -/
def c8_final : AlgorithmStatus ℤ := (run_status c8_run).getD (AlgorithmStatus.init 0)

/-- The roulette wheel on the single-operator score vector always selects
index `0`. -/
theorem c8_rw : roulette_wheel [(1 : ℚ)] 0 = .ok 0 := by
  with_unfolding_all rfl

/-- With the C8 parameters the score update leaves the score vector `[1]`
unchanged. -/
theorem c8_upd : update_score c8_params 0 c8_params.new_best_multiplier [1] = [1] := by
  with_unfolding_all decide

/-- Each of the first 100 passes of the C8 run improves the solution by `1`,
is accepted as a new best, and continues. -/
theorem c8_step_continue (k : Nat) (hk : k ≤ 99) :
    alns_step c8_ctx (c8_state k) = .ok (c8_state (k + 1)) true := by
  have hlt : ((1000 - (k : ℤ) - 1 : ℤ) : ℚ) < ((1000 - (k : ℤ) : ℤ) : ℚ) := by
    push_cast
    linarith
  have hvis : ((k : Nat) != 100) = true := by
    have : k ≠ 100 := by omega
    simpa using this
  have harith : (1000 : ℤ) - (k : ℤ) - 1 = 1000 - ((k + 1 : Nat) : ℤ) := by
    push_cast
    ring
  simp [alns_step, make_candidate, accept_phase, update_score_best, c8_ctx,
    c8_state, c8_rw, c8_upd, hlt, hvis, harith]

/-- The pass that starts at iteration counter `100` accepts a 101st
improvement and is then stopped by the visitor. -/
theorem c8_step_stop :
    alns_step c8_ctx (c8_state 100) = .ok c8_stop_state false := by
  with_unfolding_all rfl

/-- The C8 run, started at any pass `k ≤ 100` with enough fuel, stops with
`c8_stop_state`. -/
theorem c8_loop : ∀ (n k : Nat), k ≤ 100 → 101 - k ≤ n →
    solve_loop c8_ctx n (c8_state k) = .stopped c8_stop_state := by
  intro n
  induction n with
  | zero => intro k hk hn; omega
  | succ m ih =>
    intro k hk hn
    rcases Nat.lt_or_ge k 100 with h | h
    · rw [solve_loop, c8_step_continue k (by omega)]
      exact ih (k + 1) (by omega) (by omega)
    · have h100 : k = 100 := by omega
      subst h100
      rw [solve_loop, c8_step_stop]

/-- The freshly built C8 solver's status is the pass-`0` status. -/
theorem c8_solver_status : c8_solver.status = c8_state 0 := by
  norm_num [c8_solver, c8_state, ALNSSolver.make, ALNSSolver.add_destroy_method,
    ALNSSolver.add_repair_method, AlgorithmStatus.init]

/-- The C8 run stops with the stop status. -/
theorem c8_run_eq : c8_run = .stopped c8_stop_state := by
  unfold c8_run
  rw [c8_solver_status]
  exact c8_loop 200 0 (by omega) (by omega)

/-- **C8** (corrected) — counterexample to the claim as stated.  In the C8
scenario the run does stop with the iteration counter at `100`, but the best
cost is `1000 - 101 = 899`, not `1000 - 100 = 900`: the pass during which
the visitor observes iteration `100` and stops the loop has already improved
the best solution a 101st time, and the iteration counter is only
incremented after the visitor's verdict. -/
theorem c8_counterexample :
    c8_run = .stopped c8_final ∧
    c8_final.iteration_number = 100 ∧
    c8_final.best_solution = 899 ∧
    (899 : ℤ) ≠ 1000 - 100 := by
  have hf : c8_final = c8_stop_state := by
    rw [c8_final, c8_run_eq]
    rfl
  refine ⟨by rw [hf, c8_run_eq], by rw [hf]; rfl, by rw [hf]; decide, by decide⟩

/-- **C8** (amended).  In the C8 scenario, after `solve` returns the
iteration counter equals `100` and the best (and current) cost equals the
initial cost minus `101`. -/
theorem c8_amended :
    c8_final.iteration_number = 100 ∧
    c8_final.best_solution = 1000 - 101 ∧
    c8_final.current_solution = 1000 - 101 := by
  have hf : c8_final = c8_stop_state := by
    rw [c8_final, c8_run_eq]
    rfl
  refine ⟨by rw [hf]; rfl, by rw [hf]; decide, by rw [hf]; decide⟩
